import Mathlib

/-!
# Verification of `shibing624/imagefun`

Shallow embedding of the two source files of the repository:

* `src/image_generation/old_style_transfer.py` — neural style transfer:
  normalization (`to_tensor` / `to_img`), feature extraction
  (`TransferNet`), the losses (`content_loss`, `gram`, `style_loss`,
  `tv_loss`, `compute_loss`), and the training loop (`get_inits`, `train`).
* `src/cvnet/models/gan/gan.py` — a fully connected GAN trainer on MNIST:
  the per-iteration discriminator/generator steps, `denorm`, and the
  epoch-boundary image saving / final checkpointing.

Pixel values and network activations are modelled over `ℚ` (the Python
code uses floating point; all claims under verification are algebraic or
structural, so exact arithmetic is the faithful idealization).  A 4-D
tensor is a shape together with a total data function; reading outside
the shape yields junk that no definition or theorem depends on.
Fallible operations (`view` with an incompatible shape, `mean` over an
empty tensor — which is NaN in PyTorch — calls with a wrong arity)
return `Option`/`Except` with `none`/`.error` on the failing branch.
-/

open Finset

/-- A 4-D tensor `(batch, channels, height, width)` of rationals.
Mirrors the `torch.Tensor` values flowing through
`old_style_transfer.py`; `data` is total, entries outside the shape are
irrelevant junk. -/
structure T4 where
  b : ℕ
  c : ℕ
  h : ℕ
  w : ℕ
  data : ℕ → ℕ → ℕ → ℕ → ℚ

/-- Number of elements of a 4-D tensor (`tensor.numel()`). -/
def T4.numel (X : T4) : ℕ := X.b * X.c * X.h * X.w

/-- The index set of a 4-D tensor, as a finite set of quadruples. -/
def T4.idx (X : T4) : Finset (ℕ × ℕ × ℕ × ℕ) :=
  Finset.range X.b ×ˢ Finset.range X.c ×ˢ Finset.range X.h ×ˢ Finset.range X.w

/-- `X` and `Y` have the same shape. -/
def T4.sameShape (X Y : T4) : Prop :=
  X.b = Y.b ∧ X.c = Y.c ∧ X.h = Y.h ∧ X.w = Y.w

instance (X Y : T4) : Decidable (X.sameShape Y) := by
  unfold T4.sameShape; infer_instance

/-- Sum of `f` applied to corresponding entries of two same-shaped
tensors, over the index set of the first. -/
def T4.sum2 (X Y : T4) (f : ℚ → ℚ → ℚ) : ℚ :=
  ∑ p ∈ X.idx,
    f (X.data p.1 p.2.1 p.2.2.1 p.2.2.2) (Y.data p.1 p.2.1 p.2.2.1 p.2.2.2)

/-- `F.l1_loss(X, Y)` with the default `reduction='mean'`: the mean of
the absolute entrywise differences.  PyTorch requires matching shapes
here (no broadcasting is exercised by this program), and the mean of an
empty tensor is NaN: both failure modes are `none`. -/
def l1_loss (X Y : T4) : Option ℚ :=
  if X.sameShape Y ∧ X.numel ≠ 0 then
    some (X.sum2 Y (fun a b => |a - b|) / X.numel)
  else none

/-- `F.mse_loss(X, Y)` with the default `reduction='mean'`: the mean of
the squared entrywise differences; `none` on shape mismatch or an empty
tensor (NaN in PyTorch). -/
def mse_loss (X Y : T4) : Option ℚ :=
  if X.sameShape Y ∧ X.numel ≠ 0 then
    some (X.sum2 Y (fun a b => (a - b) ^ 2) / X.numel)
  else none

/-- `Y_hat[:, :, 1:, :]` — drop the first row. -/
def sliceRowsFrom1 (Y : T4) : T4 :=
  ⟨Y.b, Y.c, Y.h - 1, Y.w, fun i j k l => Y.data i j (k + 1) l⟩

/-- `Y_hat[:, :, :-1, :]` — drop the last row. -/
def sliceRowsInit (Y : T4) : T4 :=
  ⟨Y.b, Y.c, Y.h - 1, Y.w, Y.data⟩

/-- `Y_hat[:, :, :, 1:]` — drop the first column. -/
def sliceColsFrom1 (Y : T4) : T4 :=
  ⟨Y.b, Y.c, Y.h, Y.w - 1, fun i j k l => Y.data i j k (l + 1)⟩

/-- `Y_hat[:, :, :, :-1]` — drop the last column. -/
def sliceColsInit (Y : T4) : T4 :=
  ⟨Y.b, Y.c, Y.h, Y.w - 1, Y.data⟩

/-- `tv_loss` from `old_style_transfer.py`:
`0.5 * (F.l1_loss(Y[:,:,1:,:], Y[:,:,:-1,:]) + F.l1_loss(Y[:,:,:,1:], Y[:,:,:,:-1]))`. -/
def tv_loss (Y : T4) : Option ℚ := do
  let a ← l1_loss (sliceRowsFrom1 Y) (sliceRowsInit Y)
  let b ← l1_loss (sliceColsFrom1 Y) (sliceColsInit Y)
  pure ((1 / 2) * (a + b))

/-- `Y` is spatially constant: within each batch/channel slice all
pixels are equal. -/
def SpatiallyConstant (Y : T4) : Prop :=
  ∀ i j k l k' l', i < Y.b → j < Y.c → k < Y.h → l < Y.w → k' < Y.h → l' < Y.w →
    Y.data i j k l = Y.data i j k' l'

/-- `Y` has two vertically or horizontally adjacent pixels with
different values. -/
def HasNeighborDiff (Y : T4) : Prop :=
  ∃ i j k l, i < Y.b ∧ j < Y.c ∧
    ((k + 1 < Y.h ∧ l < Y.w ∧ Y.data i j (k + 1) l ≠ Y.data i j k l) ∨
     (k < Y.h ∧ l + 1 < Y.w ∧ Y.data i j k (l + 1) ≠ Y.data i j k l))

/-! ## Normalization (`to_tensor`) and denormalization (`to_img`) -/

/-- `rgb_mean = np.array([0.485, 0.456, 0.406])` (ImageNet means).
Indexing past channel 2 is out of bounds in the source; junk `0`. -/
def rgb_mean (c : ℕ) : ℚ :=
  if c = 0 then 485 / 1000 else if c = 1 then 456 / 1000 else
    if c = 2 then 406 / 1000 else 0

/-- `rgb_std = np.array([0.229, 0.224, 0.225])` (ImageNet stds).
Indexing past channel 2 is out of bounds in the source; junk `1`. -/
def rgb_std (c : ℕ) : ℚ :=
  if c = 0 then 229 / 1000 else if c = 1 then 224 / 1000 else
    if c = 2 then 225 / 1000 else 1

/-- `clamp(0, 1)` on one value. -/
def clamp01 (x : ℚ) : ℚ := max 0 (min 1 x)

/-- `to_tensor`: `Normalize(mean=rgb_mean, std=rgb_std)` applied to a
3-channel pixel tensor already scaled to `[0,1]` by `ToTensor`,
followed by `unsqueeze(dim=0)`, so the result has shape `(1, 3, h, w)`.
`Resize` only changes which pixels are fed in, not the value transform,
so the input `pix` is the already-resized `[0,1]` image. -/
def to_tensor (h w : ℕ) (pix : ℕ → ℕ → ℕ → ℚ) : T4 :=
  ⟨1, 3, h, w, fun _ c i j => (pix c i j - rgb_mean c) / rgb_std c⟩

/-- The per-pixel value transform of `to_img`:
`Normalize(mean=-rgb_mean/rgb_std, std=1/rgb_std)` followed by
`.clamp(0, 1)`.  (`ToPILImage`'s byte quantization is outside the claim,
which is about the tensor values.) -/
def to_img (t : T4) : ℕ → ℕ → ℕ → ℚ :=
  fun c i j =>
    clamp01 ((t.data 0 c i j - (-(rgb_mean c) / rgb_std c)) / (1 / rgb_std c))

/-! ## Gram matrix, style loss, content loss, total loss -/

/-- A square rational matrix with an explicit dimension, the value of
`gram` (a `(c, c)` tensor). -/
structure GMat where
  c : ℕ
  m : ℕ → ℕ → ℚ

/-- Row-major flattening used by `X.view(num_channels, n)` on a
batch-1 tensor: channel `p`, flat spatial index `m ↦ (m / w, m % w)`. -/
def T4.flat (X : T4) (p m : ℕ) : ℚ := X.data 0 p (m / X.w) (m % X.w)

/-- The entries of `torch.matmul(X, X.t()) / (num_channels * n)` for the
flattened `(num_channels, n)` view of `X`, with `n = h * w`. -/
def gramEntries (X : T4) : ℕ → ℕ → ℚ := fun p q =>
  (∑ m ∈ Finset.range (X.h * X.w), X.flat p m * X.flat q m) /
    (X.c * (X.h * X.w))

/-- `gram` from `old_style_transfer.py`:
`X.view(num_channels, n)` succeeds exactly when
`X.numel() == num_channels * n` (`n = h * w`); then the result is
`matmul(X, X.t()) / (num_channels * n)`.  On a shape for which `view`
raises, `none`. -/
def gram (X : T4) : Option GMat :=
  if X.numel = X.c * (X.h * X.w) then some ⟨X.c, gramEntries X⟩ else none

/-- `content_loss(Y_hat, Y) = F.mse_loss(Y_hat, Y)`. -/
def content_loss (Y_hat Y : T4) : Option ℚ := mse_loss Y_hat Y

/-- Mean squared difference of two `(c, c)` matrices (the `F.mse_loss`
inside `style_loss`); `none` on dimension mismatch or an empty matrix. -/
def mseG (A B : GMat) : Option ℚ :=
  if A.c = B.c ∧ A.c ≠ 0 then
    some ((∑ p ∈ Finset.range A.c ×ˢ Finset.range A.c,
      (A.m p.1 p.2 - B.m p.1 p.2) ^ 2) / (A.c * A.c))
  else none

/-- `style_loss(Y_hat, gram_Y) = F.mse_loss(gram(Y_hat), gram_Y)`. -/
def style_loss (Y_hat : T4) (gram_Y : GMat) : Option ℚ := do
  let G ← gram Y_hat
  mseG G gram_Y

/-- `compute_loss` from `old_style_transfer.py`: the weighted per-layer
content losses, the weighted per-layer style losses, the weighted
total-variation loss, and their sum
`loss = sum(styles_l) + sum(contents_l) + tv_l`. -/
def compute_loss (X : T4) (contents_Y_hat contents_Y styles_Y_hat : List T4)
    (styles_Y_gram : List GMat) (content_weight style_weight tv_weight : ℚ) :
    Option (List ℚ × List ℚ × ℚ × ℚ) := do
  let contents_l ← (contents_Y_hat.zip contents_Y).mapM
    (fun p => (content_loss p.1 p.2).map (· * content_weight))
  let styles_l ← (styles_Y_hat.zip styles_Y_gram).mapM
    (fun p => (style_loss p.1 p.2).map (· * style_weight))
  let tv_l ← (tv_loss X).map (· * tv_weight)
  pure (contents_l, styles_l, tv_l, styles_l.sum + contents_l.sum + tv_l)

/-! ## `TransferNet`: truncated VGG-19 feature extraction

The pretrained `torchvision` VGG-19 is not part of this repository; its
`features` sequence is modelled as an abstract family
`layers : ℕ → A → A` (layer `i` maps an activation to the next one).
`get_net` keeps layers `0 .. max(content_layers + style_layers)`, and
`forward` iterates the kept layers in order, capturing the outputs at
the declared indices. -/

/-- `self.style_layers = [0, 5, 10, 19, 28]`. -/
def style_layers : List ℕ := [0, 5, 10, 19, 28]

/-- `self.content_layers = [25]`. -/
def content_layers : List ℕ := [25]

/-- `max(self.content_layers + self.style_layers) + 1`, the length of
the truncated net built by `get_net`.  (Python's `max` over this
nonempty list of naturals equals `foldl max 0`.) -/
def net_len : ℕ := ((content_layers ++ style_layers).foldl Nat.max 0) + 1

/-- Composition of the first `n` layers: the activation the full network
produces right after layer `n - 1`. -/
def applyPrefix {A : Type} (layers : ℕ → A → A) : ℕ → A → A
  | 0, x => x
  | n + 1, x => layers n (applyPrefix layers n x)

/-- The body of `TransferNet.forward`: starting at layer index `i` with
`fuel` layers left to run, current activation `X`, and the contents and
styles captured so far; returns the final activation and the two
capture lists.  Mirrors
`for i in range(len(self.net)): X = self.net[i](X); if i in self.style_layers: styles.append(X); if i in self.content_layers: contents.append(X)`. -/
def forwardLoop {A : Type} (layers : ℕ → A → A) (sIdx cIdx : List ℕ) :
    ℕ → ℕ → A → List A → List A → A × List A × List A
  | _, 0, X, cs, ss => (X, cs, ss)
  | i, fuel + 1, X, cs, ss =>
    let X1 := layers i X
    let ss1 := if i ∈ sIdx then ss ++ [X1] else ss
    let cs1 := if i ∈ cIdx then cs ++ [X1] else cs
    forwardLoop layers sIdx cIdx (i + 1) fuel X1 cs1 ss1

/-- Run a forward pass over the first `len` layers, returning
`(contents, styles)` as `TransferNet.forward` does. -/
def fullForward {A : Type} (layers : ℕ → A → A) (len : ℕ) (X : A) :
    List A × List A :=
  ((forwardLoop layers style_layers content_layers 0 len X [] []).2.1,
   (forwardLoop layers style_layers content_layers 0 len X [] []).2.2)

/-- `TransferNet.forward` on the truncated net built by `get_net`:
the loop runs over exactly `net_len` layers. -/
def transferForward {A : Type} (layers : ℕ → A → A) (X : A) :
    List A × List A :=
  fullForward layers net_len X

/-! ## Style-transfer training loop (`get_inits` / `train`) -/

/-- The mutable state of the style-transfer optimization: the
synthesized image (`gen_img.weight`), the optimizer/scheduler state
(Adam moments, step counts — abstract, the optimizer is `torch`), and
the precomputed style Gram matrices. -/
structure STState (O : Type) where
  img : T4
  opt : O
  styles_Y_gram : List GMat

/-- `get_inits`: copy the content tensor into the synthesized-image
parameter (`gen_img.weight.data = X.data`), build the optimizer, and
precompute `styles_Y_gram = [gram(Y) for Y in styles_Y]` (`none` if any
`gram` fails). -/
def get_inits {O : Type} (X : T4) (opt0 : O) (styles_Y : List T4) :
    Option (STState O) :=
  (styles_Y.mapM gram).map (fun g => ⟨X, opt0, g⟩)

/-- The iterations of `train` after `get_inits`: each pass reads the
state (forward pass, `compute_loss` against the stored
`styles_Y_gram`, backward, `optimizer.step()`, `scheduler.step()`) and
writes only the synthesized image and the optimizer state.  The update
is abstracted as `step`, which is given read access to exactly the
data the loop body reads. -/
def trainLoop {O : Type} (step : T4 → O → List GMat → T4 × O) :
    ℕ → STState O → STState O
  | 0, s => s
  | n + 1, s =>
    let u := step s.img s.opt s.styles_Y_gram
    trainLoop step n ⟨u.1, u.2, s.styles_Y_gram⟩

/-- `train`: initialize via `get_inits`, run `max_epochs` iterations,
return the synthesized image (`X.detach()`). -/
def train {O : Type} (step : T4 → O → List GMat → T4 × O) (X : T4)
    (opt0 : O) (styles_Y : List T4) (max_epochs : ℕ) : Option T4 :=
  (get_inits X opt0 styles_Y).map (fun s0 => (trainLoop step max_epochs s0).img)

/-! ## GAN trainer (`src/cvnet/models/gan/gan.py`)

The networks `D`, `G`, the Adam optimizers, and the data are `torch`
objects; they are modelled abstractly.  `GanEnv` collects the
primitives the training loop uses; `discriminatorStep` and
`generatorStep` are the two consecutive blocks of the loop body, in
source order. -/

/-- The primitives of the GAN training loop.  `ΘD`/`ΘG` are the
parameter vectors of `D`/`G`, `X` images, `Z` latent vectors, `Y`
discriminator outputs / label tensors, `L` loss values.  `dOptStep p l`
is the new value of the parameters held by `d_optimizer` after
`l.backward(); d_optimizer.step()` (Adam only updates the parameters it
was constructed with: `Adam(D.parameters())`), and likewise `gOptStep`
for `Adam(G.parameters())`. -/
structure GanEnv (ΘD ΘG X Z Y L : Type) where
  Dfwd : ΘD → X → Y
  Gfwd : ΘG → Z → X
  bce : Y → Y → L
  addLoss : L → L → L
  dOptStep : ΘD → L → ΘD
  gOptStep : ΘG → L → ΘG
  real_labels : Y
  fake_labels : Y

/-- Result of the discriminator block of one iteration. -/
structure DStepOut (ΘD ΘG X Y L : Type) where
  D : ΘD
  G : ΘG
  d_loss : L
  fake_images : X
  outputsFake : Y

/-- Result of the generator block (and of the whole iteration). -/
structure GStepOut (ΘD ΘG L : Type) where
  D : ΘD
  G : ΘG
  g_loss : L

/-- The "train discriminator" block:
`outputs = D(images); d_loss_real = loss_fn(outputs, real_labels);`
`fake_images = G(z); outputs = D(fake_images);`
`d_loss_fake = loss_fn(outputs, fake_labels);`
`d_loss = d_loss_real + d_loss_fake; reset_grad(); d_loss.backward(); d_optimizer.step()`.
Only the parameters held by `d_optimizer` change; `G` is read, not
written. -/
def discriminatorStep {ΘD ΘG X Z Y L : Type} (env : GanEnv ΘD ΘG X Z Y L)
    (D : ΘD) (G : ΘG) (images : X) (z : Z) : DStepOut ΘD ΘG X Y L :=
  let outputs := env.Dfwd D images
  let d_loss_real := env.bce outputs env.real_labels
  let fake_images := env.Gfwd G z
  let outputs2 := env.Dfwd D fake_images
  let d_loss_fake := env.bce outputs2 env.fake_labels
  let d_loss := env.addLoss d_loss_real d_loss_fake
  let D1 := env.dOptStep D d_loss
  ⟨D1, G, d_loss, fake_images, outputs2⟩

/-- The "train generator" block:
`g_loss = loss_fn(outputs, real_labels); reset_grad(); g_loss.backward(); g_optimizer.step()`.
`outputs` is the variable still holding `D(fake_images)` from the
discriminator block.  Only the parameters held by `g_optimizer` change;
`D` is not touched. -/
def generatorStep {ΘD ΘG X Z Y L : Type} (env : GanEnv ΘD ΘG X Z Y L)
    (D : ΘD) (G : ΘG) (outputs : Y) : GStepOut ΘD ΘG L :=
  let g_loss := env.bce outputs env.real_labels
  ⟨D, env.gOptStep G g_loss, g_loss⟩

/-- One full iteration of the inner training loop: the discriminator
block followed by the generator block, the latter reusing the stored
`outputs`. -/
def trainStep {ΘD ΘG X Z Y L : Type} (env : GanEnv ΘD ΘG X Z Y L)
    (D : ΘD) (G : ΘG) (images : X) (z : Z) : GStepOut ΘD ΘG L :=
  let d := discriminatorStep env D G images z
  generatorStep env d.D d.G d.outputsFake

/-! ## Epoch-boundary saving in the GAN trainer

The epoch-boundary statements are modelled down to Python call arity,
because the source line
`save_image(denorm((images), os.path.join(sample_dir, 'real_images_{}.png'.format(epoch + 1))))`
passes two positional arguments to the one-parameter `denorm` (and only
one to `save_image`).  Values are tensors or strings; a call with the
wrong arity is a `TypeError`. -/

/-- A Python value reaching the save calls: an image tensor (flattened
to one index for simplicity — the arity bug does not depend on the
data) or a path string. -/
inductive PyVal where
  | tensor (d : ℕ → ℚ)
  | str (s : String)

/-- `denorm(x): out = (x + 1) / 2; return out.clamp(0, 1)`, applied
pointwise to a tensor (identity on a non-tensor, which the body would
not reach anyway). -/
def denorm : PyVal → PyVal
  | .tensor d => .tensor fun i => clamp01 ((d i + 1) / 2)
  | v => v

/-- A Python `TypeError` raised by a call with the wrong arity:
function name, number of parameters it takes, number of arguments it
was given. -/
inductive PyError where
  | typeError (fn : String) (takes given : ℕ)

/-- Calling `denorm` with a Python argument list: the function has
exactly one positional parameter. -/
def callDenorm : List PyVal → Except PyError PyVal
  | [v] => .ok (denorm v)
  | args => .error (.typeError "denorm" 1 args.length)

/-- Calling `torchvision.utils.save_image` with a Python argument list:
it requires a tensor and a path (`save_image(tensor, fp)`); returns the
path written. -/
def callSaveImage : List PyVal → Except PyError (List String)
  | [.tensor _, .str fp] => .ok [fp]
  | args => .error (.typeError "save_image" 2 args.length)

/-- `os.path.join(sample_dir, name)` with `sample_dir = "samples"`. -/
def samplePath (name : String) : String := "samples" ++ "/" ++ name

/-- The two epoch-boundary save statements, exactly as written in
`gan.py` (the misplaced parenthesis in the first statement included):
`save_image(denorm((images), os.path.join(sample_dir, 'real_images_{}.png'.format(epoch + 1))))`
then
`save_image(denorm(fake_images), os.path.join(sample_dir, 'fake_images_{}.png'.format(epoch + 1)))`.
Returns the list of files written, or the first raised error. -/
def epochBoundarySaves (images fake_images : PyVal) (epoch : ℕ) :
    Except PyError (List String) := do
  let v ← callDenorm [images,
    .str (samplePath ("real_images_" ++ toString (epoch + 1) ++ ".png"))]
  let f1 ← callSaveImage [v]
  let v2 ← callDenorm [fake_images]
  let f2 ← callSaveImage [v2,
    .str (samplePath ("fake_images_" ++ toString (epoch + 1) ++ ".png"))]
  pure (f1 ++ f2)

/-- The whole epoch loop's persistence behaviour: run the
epoch-boundary saves after each of `num_epochs` epochs (with the last
minibatches of epoch `e` given by `imagesAt e` / `fakesAt e`), then save
the two checkpoints `G.ckpt` and `D.ckpt`.  An exception aborts the
run. -/
def trainingSaves (num_epochs : ℕ) (imagesAt fakesAt : ℕ → PyVal) :
    Except PyError (List String) := do
  let saves ← (List.range num_epochs).foldlM
    (fun acc e => do
      let s ← epochBoundarySaves (imagesAt e) (fakesAt e) e
      pure (acc ++ s)) []
  pure (saves ++ ["G.ckpt", "D.ckpt"])

/-! ## Concrete instances used by counterexamples and witnesses -/

/-- The flattened `(num_channels, h*w)` view of a batch-1 tensor, as a
Mathlib matrix. -/
def flatMatrix (X : T4) : Matrix (Fin X.c) (Fin (X.h * X.w)) ℚ :=
  Matrix.of fun p m => X.data 0 (p : ℕ) ((m : ℕ) / X.w) ((m : ℕ) % X.w)

/-- A concrete instantiation of the GAN primitives over `ℚ`, in which
the discriminator's forward pass genuinely depends on its parameters
and the discriminator optimizer step genuinely moves them. -/
def ganEnvQ : GanEnv ℚ ℚ ℚ ℚ ℚ ℚ where
  Dfwd := fun d x => d + x
  Gfwd := fun g z => g + z
  bce := fun y t => y - t
  addLoss := fun a b => a + b
  dOptStep := fun d _ => d + 1
  gOptStep := fun g _ => g
  real_labels := 1
  fake_labels := 0

/-- A 1×1×1×1 (single-pixel) image, value `0`. -/
def onePixel : T4 := ⟨1, 1, 1, 1, fun _ _ _ _ => 0⟩

/-- A 1×1×1×1 activation map, value `2`. -/
def onePixel2 : T4 := ⟨1, 1, 1, 1, fun _ _ _ _ => 2⟩

/-- A 1×1×2×2 all-zero image. -/
def zeros2x2 : T4 := ⟨1, 1, 2, 2, fun _ _ _ _ => 0⟩

/-! # Theorems -/

/-! ### Helper lemmas -/

/-- Membership in the index set of a 4-D tensor. -/
theorem mem_idx (X : T4) (p : ℕ × ℕ × ℕ × ℕ) :
    p ∈ X.idx ↔ p.1 < X.b ∧ p.2.1 < X.c ∧ p.2.2.1 < X.h ∧ p.2.2.2 < X.w := by
  unfold T4.idx
  simp [Finset.mem_product]

/-- The gram matrices stored in the training state are never written by
the loop. -/
theorem trainLoop_gram_invariant {O : Type} (step : T4 → O → List GMat → T4 × O) :
    ∀ (n : ℕ) (s : STState O), (trainLoop step n s).styles_Y_gram = s.styles_Y_gram := by
  intro n
  induction n with
  | zero => intro s; rfl
  | succ n ih => intro s; exact ih _

/-!
### C1 — GAN epoch-boundary saving

`gan.py` writes
`save_image(denorm((images), os.path.join(sample_dir, 'real_images_{}.png'.format(epoch + 1))))`:
the path is a second positional argument to `denorm`, not to
`save_image`.  The first epoch boundary therefore raises `TypeError`
and nothing is ever saved.
-/

/-- C1: at every epoch boundary, the real-image save statement raises
`TypeError: denorm() takes 1 positional argument but 2 were given`, so
the epoch-boundary persistence fails; consequently the 20-epoch
training run never reaches the fake-image save of any epoch nor the
final `G.ckpt`/`D.ckpt` checkpoint saves. -/
theorem gan_epoch_boundary_save_raises :
    (∀ (images fake_images : PyVal) (epoch : ℕ),
      epochBoundarySaves images fake_images epoch =
        .error (.typeError "denorm" 1 2)) ∧
    (∀ imagesAt fakesAt : ℕ → PyVal,
      trainingSaves 20 imagesAt fakesAt = .error (.typeError "denorm" 1 2)) :=
  ⟨fun _ _ _ => rfl, fun _ _ => rfl⟩

/-!
### C2 — generator loss in the GAN loop

The generator loss reuses the variable `outputs`, which still holds
`D(fake_images)` computed *before* `d_optimizer.step()`.  The claim
says the reused output is the forward pass of the *already-updated*
discriminator; that is false.
-/

/-- C2 counterexample: in a concrete instantiation where the
discriminator step moves the parameters, the generator loss of one
training iteration differs from the BCE of the *updated*
discriminator's forward pass on the same fake batch.  (Here
`D = G = images = z = 0`: the reused pre-update output gives
`g_loss = -1`, while the updated discriminator's output would give
`0`.) -/
theorem gan_generator_loss_not_from_updated_D :
    ¬ ((trainStep ganEnvQ 0 0 0 0).g_loss =
       ganEnvQ.bce (ganEnvQ.Dfwd (trainStep ganEnvQ 0 0 0 0).D
         (discriminatorStep ganEnvQ 0 0 0 0).fake_images) ganEnvQ.real_labels) := by
  norm_num [trainStep, discriminatorStep, generatorStep, ganEnvQ]

/-- C2 (amended): in every GAN training step, the generator loss is the
BCE, against target `real_labels` (label 1), of the stored
discriminator output on the same fake batch produced in the
discriminator block — reused, not recomputed — and that output is the
forward pass of the discriminator *before* its optimizer step of the
iteration (the same value the discriminator's fake loss was computed
from). -/
theorem gan_generator_loss_reuses_preupdate_output
    {ΘD ΘG X Z Y L : Type} (env : GanEnv ΘD ΘG X Z Y L)
    (D : ΘD) (G : ΘG) (images : X) (z : Z) :
    (trainStep env D G images z).g_loss =
      env.bce (discriminatorStep env D G images z).outputsFake env.real_labels ∧
    (discriminatorStep env D G images z).outputsFake =
      env.Dfwd D (discriminatorStep env D G images z).fake_images ∧
    (discriminatorStep env D G images z).fake_images = env.Gfwd G z ∧
    (discriminatorStep env D G images z).d_loss =
      env.addLoss (env.bce (env.Dfwd D images) env.real_labels)
        (env.bce (discriminatorStep env D G images z).outputsFake env.fake_labels) :=
  ⟨rfl, rfl, rfl, rfl⟩

/-!
### C8 — optimizer steps only touch their own network
-/

/-- C8: in every GAN training iteration, the discriminator block
(ending in `d_optimizer.step()`, where `d_optimizer` holds only
`D.parameters()`) leaves the generator parameters unchanged, the
generator block (ending in `g_optimizer.step()`, where `g_optimizer`
holds only `G.parameters()`) leaves the discriminator parameters
unchanged, and the iteration is exactly the two blocks in sequence. -/
theorem gan_optimizer_steps_frame
    {ΘD ΘG X Z Y L : Type} (env : GanEnv ΘD ΘG X Z Y L)
    (D : ΘD) (G : ΘG) (images : X) (z : Z) :
    (discriminatorStep env D G images z).G = G ∧
    (∀ outputs : Y, (generatorStep env D G outputs).D = D) ∧
    trainStep env D G images z =
      generatorStep env (discriminatorStep env D G images z).D
        (discriminatorStep env D G images z).G
        (discriminatorStep env D G images z).outputsFake :=
  ⟨rfl, fun _ => rfl, rfl⟩

/-!
### C9 — style-transfer initialization and Gram invariance
-/

/-- C9: `get_inits` starts the synthesized image at exactly the
normalized content tensor passed to `train` (in `main` this is
`to_tensor(content_img)`), computes the per-style-layer Gram matrices
once, and no iteration of the training loop modifies them. -/
theorem style_transfer_init_and_gram_fixed {O : Type}
    (step : T4 → O → List GMat → T4 × O) (opt0 : O) (h w : ℕ)
    (pix : ℕ → ℕ → ℕ → ℚ) (styles_Y : List T4) (g : List GMat)
    (hg : styles_Y.mapM gram = some g) :
    get_inits (to_tensor h w pix) opt0 styles_Y =
      some ⟨to_tensor h w pix, opt0, g⟩ ∧
    ∀ n : ℕ,
      (trainLoop step n ⟨to_tensor h w pix, opt0, g⟩).styles_Y_gram = g := by
  constructor
  · unfold get_inits
    rw [hg]
    rfl
  · intro n
    exact trainLoop_gram_invariant step n _

/-- Witness for C9 at a concrete input: no style layers, a 1×1 black
content image, trivial optimizer state. -/
theorem style_transfer_init_and_gram_fixed_witness :
    ([] : List T4).mapM gram = some [] ∧
    get_inits (to_tensor 1 1 fun _ _ _ => 0) () [] =
      some ⟨to_tensor 1 1 fun _ _ _ => 0, (), []⟩ :=
  ⟨rfl, (style_transfer_init_and_gram_fixed (fun i o _ => (i, o)) () 1 1
    (fun _ _ _ => 0) [] [] rfl).1⟩

/-!
### C3 — `to_img` denormalization inverts `to_tensor` normalization
-/

/-- The per-channel standard deviations are nonzero. -/
theorem rgb_std_ne_zero (c : ℕ) : rgb_std c ≠ 0 := by
  unfold rgb_std
  split <;> try norm_num
  split <;> try norm_num
  split <;> norm_num

/-- Algebraic core: normalizing by `(m, s)` and then applying
`Normalize(-m/s, 1/s)` followed by `clamp(0,1)` is the identity on
`[0, 1]`. -/
theorem normalize_denormalize_clamp (m s x : ℚ) (hs : s ≠ 0)
    (h0 : 0 ≤ x) (h1 : x ≤ 1) :
    clamp01 (((x - m) / s - (-m / s)) / (1 / s)) = x := by
  have key : ((x - m) / s - (-m / s)) / (1 / s) = x := by
    field_simp
  rw [key, clamp01, min_eq_right h1, max_eq_right h0]

/-- C3: for every 3-channel pixel tensor with values in `[0,1]`,
normalizing with `to_tensor`'s `Normalize(rgb_mean, rgb_std)` and then
applying `to_img`'s `Normalize(-rgb_mean/rgb_std, 1/rgb_std)` with the
final `clamp(0,1)` returns the original pixel values. -/
theorem to_img_inverts_to_tensor (h w : ℕ) (pix : ℕ → ℕ → ℕ → ℚ)
    (hpix : ∀ c i j, c < 3 → i < h → j < w →
      0 ≤ pix c i j ∧ pix c i j ≤ 1) :
    ∀ c i j, c < 3 → i < h → j < w →
      to_img (to_tensor h w pix) c i j = pix c i j := by
  intro c i j hc hi hj
  obtain ⟨h0, h1⟩ := hpix c i j hc hi hj
  exact normalize_denormalize_clamp (rgb_mean c) (rgb_std c) (pix c i j)
    (rgb_std_ne_zero c) h0 h1

/-- Witness for C3: a uniform half-gray 1×1 image round-trips. -/
theorem to_img_inverts_to_tensor_witness :
    to_img (to_tensor 1 1 fun _ _ _ => 1 / 2) 0 0 0 = 1 / 2 :=
  to_img_inverts_to_tensor 1 1 (fun _ _ _ => 1 / 2)
    (fun _ _ _ _ _ _ => by norm_num) 0 0 0 (by norm_num) (by norm_num)
    (by norm_num)

/-!
### C4 — the Gram matrix is the normalized product with the transpose,
and is symmetric
-/

/-- C4: for a batch-1 activation map, `gram` succeeds and its entries
are those of `M * Mᵀ` for the flattened `(channels, h·w)` matrix `M`,
divided by `channels · (h·w)`; and the result is symmetric. -/
theorem gram_is_normalized_outer_product_and_symmetric (X : T4)
    (hb : X.b = 1) :
    gram X = some ⟨X.c, gramEntries X⟩ ∧
    (∀ p q : Fin X.c, gramEntries X p q =
      (flatMatrix X * (flatMatrix X).transpose) p q / (X.c * (X.h * X.w))) ∧
    (∀ p q : ℕ, gramEntries X p q = gramEntries X q p) := by
  refine ⟨?_, ?_, ?_⟩
  · unfold gram
    rw [if_pos]
    unfold T4.numel
    rw [hb]
    ring
  · intro p q
    unfold gramEntries flatMatrix
    rw [Matrix.mul_apply]
    congr 1
    rw [← Fin.sum_univ_eq_sum_range
      (fun m => X.flat (p : ℕ) m * X.flat (q : ℕ) m) (X.h * X.w)]
    apply Finset.sum_congr rfl
    intro m _
    rfl
  · intro p q
    unfold gramEntries
    congr 1
    apply Finset.sum_congr rfl
    intro m _
    ring

/-- Witness for C4 at a concrete batch-1 activation map. -/
theorem gram_is_normalized_outer_product_and_symmetric_witness :
    gram onePixel2 = some ⟨onePixel2.c, gramEntries onePixel2⟩ :=
  (gram_is_normalized_outer_product_and_symmetric onePixel2 rfl).1

/-!
### C5 — total-variation loss on constant and non-constant images

`F.l1_loss(···, reduction='mean')` over an *empty* slice is NaN, so on
an image whose height or width is 1 the corresponding directional term
of `tv_loss` is NaN and the total is NaN — not zero, even for a
spatially constant image.  The claim as stated is therefore false on
single-row/column images; it holds for images with at least 2 rows and
2 columns.
-/

/-- C5 counterexample: a single-pixel image is spatially constant, yet
`tv_loss` is NaN (modelled `none`), not zero, because both neighbor
slices are empty and the mean over an empty tensor is NaN. -/
theorem tv_loss_single_pixel_not_zero :
    SpatiallyConstant onePixel ∧ tv_loss onePixel = none ∧
    tv_loss onePixel ≠ some 0 := by
  refine ⟨?_, rfl, ?_⟩
  · intro i j k l k' l' _ _ _ _ _ _
    rfl
  · intro hcontra
    exact Option.noConfusion hcontra

/-- On an image with at least 2 rows and 2 columns, both directional
`l1_loss` terms are defined and `tv_loss` is half their sum. -/
theorem tv_loss_defined_parts (Y : T4) (hb : 0 < Y.b) (hc : 0 < Y.c)
    (hh : 2 ≤ Y.h) (hw : 2 ≤ Y.w) :
    tv_loss Y = some ((1 / 2) *
      ((sliceRowsFrom1 Y).sum2 (sliceRowsInit Y) (fun a b => |a - b|) /
          ((sliceRowsFrom1 Y).numel : ℚ) +
        (sliceColsFrom1 Y).sum2 (sliceColsInit Y) (fun a b => |a - b|) /
          ((sliceColsFrom1 Y).numel : ℚ))) := by
  have h1 : (sliceRowsFrom1 Y).numel ≠ 0 := by
    show Y.b * Y.c * (Y.h - 1) * Y.w ≠ 0
    have := Nat.mul_pos (Nat.mul_pos (Nat.mul_pos hb hc)
      (show 0 < Y.h - 1 by omega)) (show 0 < Y.w by omega)
    omega
  have h2 : (sliceColsFrom1 Y).numel ≠ 0 := by
    show Y.b * Y.c * Y.h * (Y.w - 1) ≠ 0
    have := Nat.mul_pos (Nat.mul_pos (Nat.mul_pos hb hc)
      (show 0 < Y.h by omega)) (show 0 < Y.w - 1 by omega)
    omega
  have e1 : l1_loss (sliceRowsFrom1 Y) (sliceRowsInit Y) =
      some ((sliceRowsFrom1 Y).sum2 (sliceRowsInit Y) (fun a b => |a - b|) /
        ((sliceRowsFrom1 Y).numel : ℚ)) := by
    unfold l1_loss
    rw [if_pos]
    exact ⟨⟨rfl, rfl, rfl, rfl⟩, h1⟩
  have e2 : l1_loss (sliceColsFrom1 Y) (sliceColsInit Y) =
      some ((sliceColsFrom1 Y).sum2 (sliceColsInit Y) (fun a b => |a - b|) /
        ((sliceColsFrom1 Y).numel : ℚ)) := by
    unfold l1_loss
    rw [if_pos]
    exact ⟨⟨rfl, rfl, rfl, rfl⟩, h2⟩
  simp [tv_loss, e1, e2]

/-- A spatially constant image has zero vertical-difference sum. -/
theorem sum2_rows_eq_zero (Y : T4) (hconst : SpatiallyConstant Y) :
    (sliceRowsFrom1 Y).sum2 (sliceRowsInit Y) (fun a b => |a - b|) = 0 := by
  unfold T4.sum2
  apply Finset.sum_eq_zero
  intro p hp
  rw [mem_idx] at hp
  obtain ⟨hp1, hp2, hp3, hp4⟩ := hp
  have hk : p.2.2.1 < Y.h - 1 := hp3
  have hl : p.2.2.2 < Y.w := hp4
  have hd : Y.data p.1 p.2.1 (p.2.2.1 + 1) p.2.2.2 =
      Y.data p.1 p.2.1 p.2.2.1 p.2.2.2 :=
    hconst p.1 p.2.1 (p.2.2.1 + 1) p.2.2.2 p.2.2.1 p.2.2.2 hp1 hp2
      (by omega) hl (by omega) hl
  show |Y.data p.1 p.2.1 (p.2.2.1 + 1) p.2.2.2 -
    Y.data p.1 p.2.1 p.2.2.1 p.2.2.2| = 0
  rw [hd, sub_self, abs_zero]

/-- A spatially constant image has zero horizontal-difference sum. -/
theorem sum2_cols_eq_zero (Y : T4) (hconst : SpatiallyConstant Y) :
    (sliceColsFrom1 Y).sum2 (sliceColsInit Y) (fun a b => |a - b|) = 0 := by
  unfold T4.sum2
  apply Finset.sum_eq_zero
  intro p hp
  rw [mem_idx] at hp
  obtain ⟨hp1, hp2, hp3, hp4⟩ := hp
  have hk : p.2.2.1 < Y.h := hp3
  have hl : p.2.2.2 < Y.w - 1 := hp4
  have hd : Y.data p.1 p.2.1 p.2.2.1 (p.2.2.2 + 1) =
      Y.data p.1 p.2.1 p.2.2.1 p.2.2.2 :=
    hconst p.1 p.2.1 p.2.2.1 (p.2.2.2 + 1) p.2.2.1 p.2.2.2 hp1 hp2
      hk (by omega) hk (by omega)
  show |Y.data p.1 p.2.1 p.2.2.1 (p.2.2.2 + 1) -
    Y.data p.1 p.2.1 p.2.2.1 p.2.2.2| = 0
  rw [hd, sub_self, abs_zero]

/-- An entrywise absolute-difference sum is nonnegative. -/
theorem sum2_abs_nonneg (X Y : T4) :
    0 ≤ X.sum2 Y (fun a b => |a - b|) := by
  unfold T4.sum2
  exact Finset.sum_nonneg (fun p _ => abs_nonneg _)

/-- A differing vertical neighbor pair makes the vertical-difference
sum strictly positive. -/
theorem sum2_rows_pos (Y : T4) (i j k l : ℕ) (hi : i < Y.b) (hj : j < Y.c)
    (hk : k + 1 < Y.h) (hl : l < Y.w)
    (hne : Y.data i j (k + 1) l ≠ Y.data i j k l) :
    0 < (sliceRowsFrom1 Y).sum2 (sliceRowsInit Y) (fun a b => |a - b|) := by
  unfold T4.sum2
  apply Finset.sum_pos'
  · intro p _
    exact abs_nonneg _
  · refine ⟨(i, j, k, l), ?_, ?_⟩
    · rw [mem_idx]
      exact ⟨hi, hj, by show k < Y.h - 1; omega, hl⟩
    · show 0 < |Y.data i j (k + 1) l - Y.data i j k l|
      exact abs_pos.mpr (sub_ne_zero.mpr hne)

/-- A differing horizontal neighbor pair makes the
horizontal-difference sum strictly positive. -/
theorem sum2_cols_pos (Y : T4) (i j k l : ℕ) (hi : i < Y.b) (hj : j < Y.c)
    (hk : k < Y.h) (hl : l + 1 < Y.w)
    (hne : Y.data i j k (l + 1) ≠ Y.data i j k l) :
    0 < (sliceColsFrom1 Y).sum2 (sliceColsInit Y) (fun a b => |a - b|) := by
  unfold T4.sum2
  apply Finset.sum_pos'
  · intro p _
    exact abs_nonneg _
  · refine ⟨(i, j, k, l), ?_, ?_⟩
    · rw [mem_idx]
      exact ⟨hi, hj, hk, by show l < Y.w - 1; omega⟩
    · show 0 < |Y.data i j k (l + 1) - Y.data i j k l|
      exact abs_pos.mpr (sub_ne_zero.mpr hne)

/-- C5 (amended): on an image with nonempty batch and channel
dimensions and at least 2 rows and 2 columns, `tv_loss` — half the sum
of the two directional mean absolute neighbor differences — is exactly
zero for a spatially constant image and strictly positive when some
pair of neighboring pixels differs.  (For a spatial dimension of size
1 the corresponding mean is over an empty slice and `tv_loss` is NaN,
see the counterexample.) -/
theorem tv_loss_zero_iff_constant (Y : T4) (hb : 0 < Y.b) (hc : 0 < Y.c)
    (hh : 2 ≤ Y.h) (hw : 2 ≤ Y.w) :
    (SpatiallyConstant Y → tv_loss Y = some 0) ∧
    (HasNeighborDiff Y → ∃ q, 0 < q ∧ tv_loss Y = some q) := by
  have e := tv_loss_defined_parts Y hb hc hh hw
  have hr : (0 : ℚ) < ((sliceRowsFrom1 Y).numel : ℚ) := by
    have : 0 < (sliceRowsFrom1 Y).numel := by
      show 0 < Y.b * Y.c * (Y.h - 1) * Y.w
      exact Nat.mul_pos (Nat.mul_pos (Nat.mul_pos hb hc) (by omega)) (by omega)
    exact_mod_cast this
  have hcnum : (0 : ℚ) < ((sliceColsFrom1 Y).numel : ℚ) := by
    have : 0 < (sliceColsFrom1 Y).numel := by
      show 0 < Y.b * Y.c * Y.h * (Y.w - 1)
      exact Nat.mul_pos (Nat.mul_pos (Nat.mul_pos hb hc) (by omega)) (by omega)
    exact_mod_cast this
  constructor
  · intro hconst
    rw [e, sum2_rows_eq_zero Y hconst, sum2_cols_eq_zero Y hconst]
    norm_num
  · rintro ⟨i, j, k, l, hi, hj, hcase⟩
    refine ⟨_, ?_, e⟩
    rcases hcase with ⟨hk, hl, hne⟩ | ⟨hk, hl, hne⟩
    · have hA := sum2_rows_pos Y i j k l hi hj hk hl hne
      have t1 := div_pos hA hr
      have t2 := div_nonneg (sum2_abs_nonneg (sliceColsFrom1 Y) (sliceColsInit Y))
        (le_of_lt hcnum)
      linarith
    · have hB := sum2_cols_pos Y i j k l hi hj hk hl hne
      have t1 := div_nonneg (sum2_abs_nonneg (sliceRowsFrom1 Y) (sliceRowsInit Y))
        (le_of_lt hr)
      have t2 := div_pos hB hcnum
      linarith

/-- Witness for C5 at a concrete input: the all-zero 1×1×2×2 image is
spatially constant and its total-variation loss evaluates to zero. -/
theorem tv_loss_zero_iff_constant_witness :
    tv_loss zeros2x2 = some 0 :=
  (tv_loss_zero_iff_constant zeros2x2 (by decide) (by decide) (by decide)
    (by decide)).1 (fun i j k l k' l' _ _ _ _ _ _ => rfl)

/-!
### C6 — the total loss is the weighted sum of the three parts
-/

/-- Weighting each element of a fallible list computation commutes with
running the unweighted computation and weighting afterwards. -/
theorem mapM_map_mul (α : Type) (f : α → Option ℚ) (v : ℚ) :
    ∀ l : List α, (l.mapM fun a => (f a).map (· * v)) =
      (l.mapM f).map (List.map (· * v)) := by
  intro l
  induction l with
  | nil => rfl
  | cons a l ih =>
    rw [List.mapM_cons, List.mapM_cons, ih]
    cases f a <;> cases l.mapM f <;> simp

/-- Summing a list scaled by `v` equals the scaled sum. -/
theorem list_sum_map_mul (v : ℚ) : ∀ l : List ℚ,
    (l.map (· * v)).sum = l.sum * v := by
  intro l
  induction l with
  | nil => simp
  | cons a l ih =>
    simp [ih]
    ring

/-- C6: whenever the per-layer content losses, the per-layer style
losses and the total-variation loss are all defined, `compute_loss`
returns
`loss = content_weight·Σ contents + style_weight·Σ styles + tv_weight·tv`
(together with the weighted per-layer lists it also returns). -/
theorem compute_loss_weighted_sum (X : T4)
    (contents_Y_hat contents_Y styles_Y_hat : List T4)
    (styles_Y_gram : List GMat) (content_weight style_weight tv_weight : ℚ)
    (ms ss : List ℚ) (t : ℚ)
    (hms : ((contents_Y_hat.zip contents_Y).mapM fun p =>
      content_loss p.1 p.2) = some ms)
    (hss : ((styles_Y_hat.zip styles_Y_gram).mapM fun p =>
      style_loss p.1 p.2) = some ss)
    (ht : tv_loss X = some t) :
    compute_loss X contents_Y_hat contents_Y styles_Y_hat styles_Y_gram
        content_weight style_weight tv_weight =
      some (ms.map (· * content_weight), ss.map (· * style_weight),
        t * tv_weight,
        content_weight * ms.sum + style_weight * ss.sum + tv_weight * t) := by
  unfold compute_loss
  rw [mapM_map_mul (T4 × T4) (fun p => content_loss p.1 p.2) content_weight,
    hms, mapM_map_mul (T4 × GMat) (fun p => style_loss p.1 p.2) style_weight,
    hss, ht]
  simp [list_sum_map_mul]
  ring

/-- Witness for C6: empty layer lists and the all-zero 1×1×2×2 image,
with the default weights of the script. -/
theorem compute_loss_weighted_sum_witness :
    tv_loss zeros2x2 = some 0 ∧
    compute_loss zeros2x2 [] [] [] [] 1 1000 10 =
      some (List.map (· * 1) [], List.map (· * 1000) [], 0 * 10,
        1 * List.sum [] + 1000 * List.sum [] + 10 * 0) := by
  have ht : tv_loss zeros2x2 = some 0 := by
    norm_num [tv_loss, l1_loss, T4.sameShape, T4.numel, T4.sum2, T4.idx,
      sliceRowsFrom1, sliceRowsInit, sliceColsFrom1, sliceColsInit, zeros2x2]
  exact ⟨ht, compute_loss_weighted_sum zeros2x2 [] [] [] [] 1 1000 10 [] [] 0
    rfl rfl ht⟩

/-!
### C7 — the truncated network returns the same activations as the
untruncated one
-/

/-- Unfolding: zero layers left. -/
theorem forwardLoop_zero {A : Type} (layers : ℕ → A → A) (sIdx cIdx : List ℕ)
    (i : ℕ) (X : A) (cs ss : List A) :
    forwardLoop layers sIdx cIdx i 0 X cs ss = (X, cs, ss) := rfl

/-- Unfolding: one more layer to run. -/
theorem forwardLoop_succ {A : Type} (layers : ℕ → A → A) (sIdx cIdx : List ℕ)
    (i fuel : ℕ) (X : A) (cs ss : List A) :
    forwardLoop layers sIdx cIdx i (fuel + 1) X cs ss =
      forwardLoop layers sIdx cIdx (i + 1) fuel (layers i X)
        (if i ∈ cIdx then cs ++ [layers i X] else cs)
        (if i ∈ sIdx then ss ++ [layers i X] else ss) := rfl

/-- Splitting a run of `m + k` layers into a run of `m` and a run of
`k`. -/
theorem forwardLoop_add {A : Type} (layers : ℕ → A → A) (sIdx cIdx : List ℕ)
    (m : ℕ) : ∀ (k i : ℕ) (X : A) (cs ss : List A),
    forwardLoop layers sIdx cIdx i (m + k) X cs ss =
      forwardLoop layers sIdx cIdx (i + m) k
        (forwardLoop layers sIdx cIdx i m X cs ss).1
        (forwardLoop layers sIdx cIdx i m X cs ss).2.1
        (forwardLoop layers sIdx cIdx i m X cs ss).2.2 := by
  induction m with
  | zero =>
    intro k i X cs ss
    simp [forwardLoop_zero]
  | succ m ih =>
    intro k i X cs ss
    rw [show m + 1 + k = (m + k) + 1 from by omega]
    rw [forwardLoop_succ]
    rw [ih k (i + 1)]
    rw [show i + 1 + m = i + (m + 1) from by omega]
    rw [forwardLoop_succ]

/-- Past layer index 28 nothing is captured any more: layers with
index ≥ 29 are in neither `style_layers` nor `content_layers`. -/
theorem forwardLoop_no_capture {A : Type} (layers : ℕ → A → A) :
    ∀ (k i : ℕ) (X : A) (cs ss : List A), 29 ≤ i →
      (forwardLoop layers style_layers content_layers i k X cs ss).2 =
        (cs, ss) := by
  intro k
  induction k with
  | zero =>
    intro i X cs ss _
    rfl
  | succ k ih =>
    intro i X cs ss hi
    rw [forwardLoop_succ]
    have hs : i ∉ style_layers := by
      intro hmem
      simp [style_layers] at hmem
      omega
    have hc : i ∉ content_layers := by
      intro hmem
      simp [content_layers] at hmem
      omega
    rw [if_neg hs, if_neg hc]
    exact ih (i + 1) _ _ _ (by omega)

/-- C7: a forward pass of the truncated net (layers `0 .. 28`, where
`net_len = max(content_layers + style_layers) + 1 = 29`) returns
exactly the content activation at layer 25 and the style activations
at layers 0, 5, 10, 19, 28, each list in ascending layer order, where
the activation captured at index `i` is the composition of layers
`0 .. i` applied to the input; and running the loop over any longer
(untruncated) prefix of the layer family returns the same two lists:
the truncation has no effect on which activations are returned. -/
theorem truncation_has_no_effect {A : Type} (layers : ℕ → A → A) (X : A)
    (fullLen : ℕ) (hlen : net_len ≤ fullLen) :
    transferForward layers X =
      ([applyPrefix layers 26 X],
       [applyPrefix layers 1 X, applyPrefix layers 6 X,
        applyPrefix layers 11 X, applyPrefix layers 20 X,
        applyPrefix layers 29 X]) ∧
    transferForward layers X = fullForward layers fullLen X := by
  constructor
  · rfl
  · unfold transferForward fullForward
    rw [show fullLen = net_len + (fullLen - net_len) from by omega]
    rw [forwardLoop_add layers style_layers content_layers net_len
      (fullLen - net_len) 0 X [] []]
    rw [forwardLoop_no_capture layers (fullLen - net_len) (0 + net_len) _ _ _
      (by decide)]

/-- Witness for C7: concrete layer family `x ↦ x + i` over `ℚ`, input
`0`, untruncated length 37 (the length of VGG-19's `features`). -/
theorem truncation_has_no_effect_witness :
    transferForward (fun i x => x + (i : ℚ)) (0 : ℚ) =
      ([applyPrefix (fun i x => x + (i : ℚ)) 26 0],
       [applyPrefix (fun i x => x + (i : ℚ)) 1 0,
        applyPrefix (fun i x => x + (i : ℚ)) 6 0,
        applyPrefix (fun i x => x + (i : ℚ)) 11 0,
        applyPrefix (fun i x => x + (i : ℚ)) 20 0,
        applyPrefix (fun i x => x + (i : ℚ)) 29 0]) ∧
    transferForward (fun i x => x + (i : ℚ)) (0 : ℚ) =
      fullForward (fun i x => x + (i : ℚ)) 37 0 :=
  truncation_has_no_effect (fun i x => x + (i : ℚ)) 0 37 (by decide)

/-!
### C10 — `gram`'s reshape requires a batch dimension of 1, and this
program only feeds it batch-1 activations
-/

/-- Every activation the forward loop collects has the same batch size
as the input, provided each layer preserves the batch dimension. -/
theorem forwardLoop_batch_one (layers : ℕ → T4 → T4)
    (hL : ∀ i t, (layers i t).b = t.b) :
    ∀ (fuel i : ℕ) (X : T4) (cs ss : List T4), X.b = 1 →
      (∀ t ∈ cs, t.b = 1) → (∀ t ∈ ss, t.b = 1) →
      (∀ t ∈ (forwardLoop layers style_layers content_layers
        i fuel X cs ss).2.1, t.b = 1) ∧
      (∀ t ∈ (forwardLoop layers style_layers content_layers
        i fuel X cs ss).2.2, t.b = 1) := by
  intro fuel
  induction fuel with
  | zero =>
    intro i X cs ss hX hcs hss
    exact ⟨hcs, hss⟩
  | succ fuel ih =>
    intro i X cs ss hX hcs hss
    rw [forwardLoop_succ]
    apply ih
    · rw [hL]
      exact hX
    · intro t ht
      by_cases hmem : i ∈ content_layers
      · rw [if_pos hmem] at ht
        rcases List.mem_append.mp ht with hin | hin
        · exact hcs t hin
        · have heq := List.mem_singleton.mp hin
          rw [heq, hL]
          exact hX
      · rw [if_neg hmem] at ht
        exact hcs t ht
    · intro t ht
      by_cases hmem : i ∈ style_layers
      · rw [if_pos hmem] at ht
        rcases List.mem_append.mp ht with hin | hin
        · exact hss t hin
        · have heq := List.mem_singleton.mp hin
          rw [heq, hL]
          exact hX
      · rw [if_neg hmem] at ht
        exact hss t ht

/-- C10: (1) `gram`'s `view(num_channels, n)` succeeds on an activation
map (positive channel/spatial dimensions) exactly when the batch
dimension is 1, and fails for every other batch size; (2) `to_tensor`
always produces a batch-1 tensor; (3) if every layer preserves the
batch dimension (as VGG's conv/ReLU/pool layers do), every activation
`TransferNet.forward` returns on a batch-1 input — these are the only
tensors this program passes to `gram` — has batch dimension 1, so the
failure branch is unreachable in the pipeline. -/
theorem gram_view_requires_batch_one :
    (∀ X : T4, 0 < X.c → 0 < X.h → 0 < X.w →
      ((gram X).isSome ↔ X.b = 1)) ∧
    (∀ (h w : ℕ) (pix : ℕ → ℕ → ℕ → ℚ), (to_tensor h w pix).b = 1) ∧
    (∀ layers : ℕ → T4 → T4, (∀ i t, (layers i t).b = t.b) →
      ∀ X : T4, X.b = 1 → ∀ t : T4,
        t ∈ (transferForward layers X).1 ∨ t ∈ (transferForward layers X).2 →
        t.b = 1) := by
  refine ⟨?_, fun _ _ _ => rfl, ?_⟩
  · intro X hc hh hw
    have hcond : X.numel = X.c * (X.h * X.w) ↔ X.b = 1 := by
      unfold T4.numel
      constructor
      · intro hE
        have hpos : 0 < X.c * (X.h * X.w) := Nat.mul_pos hc (Nat.mul_pos hh hw)
        have hE1 : X.b * (X.c * (X.h * X.w)) = 1 * (X.c * (X.h * X.w)) := by
          rw [one_mul]
          calc X.b * (X.c * (X.h * X.w)) = X.b * X.c * X.h * X.w := by ring
            _ = X.c * (X.h * X.w) := hE
        exact Nat.eq_of_mul_eq_mul_right hpos hE1
      · intro hb1
        rw [hb1]
        ring
    constructor
    · intro hsome
      apply hcond.mp
      by_contra hne
      unfold gram at hsome
      rw [if_neg hne] at hsome
      simp at hsome
    · intro hb1
      unfold gram
      rw [if_pos (hcond.mpr hb1)]
      rfl
  · intro layers hL X hX t ht
    have hmain := forwardLoop_batch_one layers hL net_len 0 X [] [] hX
      (fun t ht => absurd ht (List.not_mem_nil t))
      (fun t ht => absurd ht (List.not_mem_nil t))
    rcases ht with hin | hin
    · exact hmain.1 t hin
    · exact hmain.2 t hin

/-- Witness for C10 at concrete inputs: a 1×1×1×1 activation map, a
1×1 image, and the identity layer family. -/
theorem gram_view_requires_batch_one_witness :
    ((gram onePixel2).isSome ↔ onePixel2.b = 1) ∧
    (to_tensor 1 1 fun _ _ _ => 0).b = 1 ∧
    onePixel2.b = 1 :=
  ⟨gram_view_requires_batch_one.1 onePixel2 (by decide) (by decide) (by decide),
   gram_view_requires_batch_one.2.1 1 1 (fun _ _ _ => 0),
   gram_view_requires_batch_one.2.2 (fun _ t => t) (fun _ _ => rfl) onePixel2
     rfl onePixel2 (Or.inl (List.mem_singleton_self onePixel2))⟩
